import Mathlib

/-!
Shallow embedding of the tale backend (Mongoose `Tale` model plus the
controllers in `controllers/tales.js`).

Identities (`req.user._id`, `tale.author`, the elements of `likedBy`) are
opaque values compared for equality in the source; they are modelled as `Nat`.
The `likes` counter is a JS number that the code floors at 0 on decrement but
that a PATCH may set freely, so it is modelled as `Int`.

Each controller first performs `Tale.findById(req.params.id)`; the operations
below take that lookup result as an `Option Tale` argument and return the
stored state after the request (`Option Tale`, unchanged on error paths)
together with the HTTP response modelled as `Except Err _`.
-/

/-- Identity references (`ObjectId`s) compared for equality. -/
abbrev UserId := Nat

/-- The error taxonomy of the backend (400/404/403/500 responses). -/
inductive Err where
  | validation (msg : String)
  | notFound
  | forbidden (msg : String)
  | generationFailed
deriving Repr, DecidableEq

/-- A stored `Tale` document (fields of `taleSchema` in `models/Tale.js`,
minus the timestamps, which no claim mentions). -/
structure Tale where
  title : String
  content : String
  ageRange : String
  topic : String
  author : UserId
  isPublic : Bool
  likes : Int
  likedBy : List UserId
deriving Repr, DecidableEq

/-- The `enum` of the `ageRange` path in `taleSchema`. -/
def ageRanges : List String := ["2-4", "5-7", "8-10", "11-13"]

/-- The `enum` of the `topic` path in `taleSchema`. -/
def topics : List String :=
  ["adventure", "fantasy", "animals", "friendship", "nature",
   "space", "science", "history", "sports"]

/-- JS LineTerminator (LF, CR, LS U+2028, PS U+2029): the code points `.`
does NOT match in a JavaScript regex without the `s` flag. -/
def isTerm (c : Char) : Bool :=
  c = '\n' || c = '\r' || c = '\u2028' || c = '\u2029'

/-- JS whitespace: the class `\s`, which is also exactly the set
`String.prototype.trim` strips (ECMAScript WhiteSpace and LineTerminator):
TAB LF VT FF CR SP NBSP OGHAM, U+2000 to U+200A, LS PS NNBSP MMSP IDSP
ZWNBSP. -/
def isWs (c : Char) : Bool :=
  c = '\t' || c = '\n' || c = '\x0b' || c = '\x0c' || c = '\r' || c = ' ' ||
  c = '\u00a0' || c = '\u1680' ||
  c = '\u2000' || c = '\u2001' || c = '\u2002' || c = '\u2003' ||
  c = '\u2004' || c = '\u2005' || c = '\u2006' || c = '\u2007' ||
  c = '\u2008' || c = '\u2009' || c = '\u200a' ||
  c = '\u2028' || c = '\u2029' ||
  c = '\u202f' || c = '\u205f' || c = '\u3000' || c = '\ufeff'

/-- `String.prototype.trim` on a character list. -/
def trimChars (l : List Char) : List Char :=
  ((l.dropWhile isWs).reverse.dropWhile isWs).reverse

/-- `String.prototype.trim` (also the `trim: true` setter of the schema). -/
def strTrim (s : String) : String := ⟨trimChars s.data⟩

/-- The request body of `POST /api/tales` as destructured by `createTale`:
`{ title, content, ageRange, topic, isPublic }`, each possibly `undefined`. -/
structure CreateBody where
  title : Option String
  content : Option String
  ageRange : Option String
  topic : Option String
  isPublic : Option Bool
deriving Repr, DecidableEq

/-- `createTale` (`controllers/tales.js` 82–102): `Tale.create` applies the
schema's `trim` setters, then its validators (`required` on title, content,
ageRange, topic; `maxlength 100` on title; the two `enum`s), persisting
`likes = 0`, `likedBy = []`, `isPublic: isPublic || false` on success and
persisting nothing on a `ValidationError`. -/
def createTale (author : UserId) (b : CreateBody) : Except Err Tale :=
  let title := strTrim (b.title.getD "")
  let content := strTrim (b.content.getD "")
  if title = "" then .error (.validation "Please provide a title")
  else if 100 < title.length then
    .error (.validation "Title cannot be more than 100 characters")
  else if content = "" then .error (.validation "Please provide content for the tale")
  else
    match b.ageRange with
    | none => .error (.validation "Please specify an age range")
    | some a =>
      if ¬ a ∈ ageRanges then .error (.validation "ageRange enum")
      else
        match b.topic with
        | none => .error (.validation "Please specify a topic")
        | some tp =>
          if ¬ tp ∈ topics then .error (.validation "topic enum")
          else .ok { title := title, content := content, ageRange := a, topic := tp,
                     author := author, isPublic := b.isPublic.getD false,
                     likes := 0, likedBy := [] }

/-- The request body of `PATCH /api/tales/:id`: `updateTale` passes `req.body`
to `findByIdAndUpdate` wholesale, so every schema path can occur in it. -/
structure Patch where
  title : Option String := none
  content : Option String := none
  ageRange : Option String := none
  topic : Option String := none
  isPublic : Option Bool := none
  author : Option UserId := none
  likes : Option Int := none
  likedBy : Option (List UserId) := none
deriving Repr, DecidableEq

/-- The validators that `runValidators: true` runs on the updated paths
(title: required-nonempty and maxlength; content: required-nonempty;
ageRange/topic: enum; the remaining paths have no validators). -/
def validPatch (p : Patch) : Bool :=
  (match p.title with
   | none => true
   | some v => strTrim v ≠ "" && (strTrim v).length ≤ 100) &&
  (match p.content with
   | none => true
   | some v => strTrim v ≠ "") &&
  (match p.ageRange with
   | none => true
   | some a => a ∈ ageRanges) &&
  (match p.topic with
   | none => true
   | some tp => tp ∈ topics)

/-- The `$set` that `findByIdAndUpdate(req.params.id, req.body, ...)` applies:
every path named by the patch is overwritten (string paths through the
`trim` setter), every other path is kept. -/
def applyPatch (t : Tale) (p : Patch) : Tale :=
  { title := (p.title.map strTrim).getD t.title,
    content := (p.content.map strTrim).getD t.content,
    ageRange := p.ageRange.getD t.ageRange,
    topic := p.topic.getD t.topic,
    isPublic := p.isPublic.getD t.isPublic,
    author := p.author.getD t.author,
    likes := p.likes.getD t.likes,
    likedBy := p.likedBy.getD t.likedBy }

/-- `updateTale` (`controllers/tales.js` 188–215): 404 when `findById` returns
nothing; 403 when the requester is not the author; otherwise
`findByIdAndUpdate(req.params.id, req.body, { new: true, runValidators: true })`,
which leaves the document unchanged when a validator fails. -/
def updateTale (found : Option Tale) (requester : UserId) (p : Patch) :
    Option Tale × Except Err Tale :=
  match found with
  | none => (none, .error .notFound)
  | some tale =>
    if tale.author ≠ requester then
      (some tale, .error (.forbidden "Not authorized to update this tale"))
    else if validPatch p then
      (some (applyPatch tale p), .ok (applyPatch tale p))
    else (some tale, .error (.validation "update validation"))

/-- `getTaleById` (`controllers/tales.js` 161–183): 404 when absent; the
requester is `req.user?._id` (the route has no `protect` middleware, so it may
be `none`); `isAuthor` is `req.user && req.user._id == tale.author`; 403 when
the tale is not public and the requester is not the author. -/
def getTaleById (found : Option Tale) (requester : Option UserId) : Except Err Tale :=
  match found with
  | none => .error .notFound
  | some tale =>
    let isAuthor := requester = some tale.author
    if ¬ tale.isPublic ∧ ¬ isAuthor then
      .error (.forbidden "Not authorized to access this tale")
    else .ok tale

/-- `likeTale` (`controllers/tales.js` 247–289): 404 when absent; 403 when the
tale is not public (checked before anything else, so also for the author);
otherwise `tale.likedBy.indexOf(userId)` is compared with `-1`
(modelled as `contains`): absent → `likes += 1` and `push` (append), returning
`liked: true`; present → `likes = Math.max(0, likes - 1)` and
`splice(userIndex, 1)` (remove the first occurrence, modelled as `erase`),
returning `liked: false`; both branches `save` and return the new count. -/
def likeTale (found : Option Tale) (userId : UserId) :
    Option Tale × Except Err (Bool × Int) :=
  match found with
  | none => (none, .error .notFound)
  | some tale =>
    if ¬ tale.isPublic then
      (some tale, .error (.forbidden "Cannot like a private tale"))
    else if tale.likedBy.contains userId then
      let t := { tale with likes := max 0 (tale.likes - 1),
                           likedBy := tale.likedBy.erase userId }
      (some t, .ok (false, t.likes))
    else
      let t := { tale with likes := tale.likes + 1,
                           likedBy := tale.likedBy ++ [userId] }
      (some t, .ok (true, t.likes))

/-- `checkLikeStatus` (`controllers/tales.js` 294–312): 404 when absent;
otherwise `liked = tale.likedBy.includes(userId)` — no visibility or
ownership check of any kind. -/
def checkLikeStatus (found : Option Tale) (userId : UserId) : Except Err Bool :=
  match found with
  | none => .error .notFound
  | some tale => .ok (tale.likedBy.contains userId)

/-- The title/body extraction of `generateTale` (`controllers/tales.js`
53–63): `titleMatch = generatedContent.match(/^#\\s*(.*?)(?:\\n|$)/) ||
generatedContent.match(/^(.*?)(?:\\n|$)/)`; then
`title = titleMatch ? titleMatch[1].trim() : "Untitled Tale"` and, when
`titleMatch` is non-null, `content = generatedContent.replace(titleMatch[0],
'').trim()` — the match is a prefix of the text, so the replace drops it —
while a null `titleMatch` leaves `content` the whole text, untrimmed.

The branches below resolve the JS regex semantics (`.` matches everything
but a LineTerminator, `isTerm`; `\\s*` is greedy, `(.*?)` lazy; the first
match found in that backtracking order wins):
* text starting with `#`: with `w` the maximal `\\s`-run after the `#` and
  `r` the rest, the first candidate is `\\s* = w` with capture the `.`-run
  `t` of `r`; it matches iff `t` reaches the end of the text or stops at a
  `'\\n'`, consuming `'#' ++ w ++ t` plus that newline;
* otherwise the engine backtracks `\\s*`; every shorter candidate fails the
  same way until one ends right before a `'\\n'` still inside `w` — the LAST
  `'\\n'` of `w`, located by the trailing non-newline count `k`: there the
  capture is empty and `(?:\\n|$)` eats that newline;
* with no `'\\n'` in `w` either, the first regex is null, and the fallback
  fails too (its `.`-run from the `'#'` meets the same non-`'\\n'`
  terminator): `titleMatch` is null — the "Untitled Tale" branch;
* text not starting with `#`: only the fallback runs; its capture is the
  leading `.`-run of the text, matching iff that run reaches the end or a
  `'\\n'`, and null otherwise (a CR, LS or PS before any `'\\n'`). -/
def parseGenerated (s : List Char) : List Char × List Char :=
  if s.head? = some '#' then
    let w := s.tail.takeWhile isWs
    let r := s.tail.dropWhile isWs
    let t := r.takeWhile (fun c => !isTerm c)
    if t.length = r.length ∨ r[t.length]? = some '\n' then
      (trimChars t,
       trimChars (s.drop (1 + w.length + t.length +
         (if t.length < r.length then 1 else 0))))
    else if '\n' ∈ w then
      ([], trimChars (s.drop
        (1 + w.length - (w.reverse.takeWhile (fun c => c ≠ '\n')).length)))
    else ("Untitled Tale".data, s)
  else
    let t := s.takeWhile (fun c => !isTerm c)
    if t.length = s.length ∨ s[t.length]? = some '\n' then
      (trimChars t,
       trimChars (s.drop (t.length + (if t.length < s.length then 1 else 0))))
    else ("Untitled Tale".data, s)

/-- The response body of `POST /api/tales/generate`. -/
structure GenOut where
  title : List Char
  content : List Char
  ageRange : String
  topic : String
deriving Repr, DecidableEq

/-- `generateTale` (`controllers/tales.js` 13–77): 400 when `ageRange` or
`topic` is missing (or empty — JS falsiness); then one single call to the
external generator (`apiResult` is its outcome; the `catch` turns a failure
into a 500 and there is no retry), whose text is split by `parseGenerated`. -/
def generateTale (ageRange topic : Option String) (apiResult : Except Unit (List Char)) :
    Except Err GenOut :=
  match ageRange, topic with
  | some a, some tp =>
    if a = "" ∨ tp = "" then .error (.validation "Age range and topic are required")
    else
      match apiResult with
      | .error _ => .error .generationFailed
      | .ok text =>
        let p := parseGenerated text
        .ok { title := p.1, content := p.2, ageRange := a, topic := tp }
  | _, _ => .error (.validation "Age range and topic are required")

/-- Parsing of the generated text as claim C8 (and §4.2 of the spec) words it:
the title is the first line with a leading markdown heading marker stripped
when present, the body is the remainder with the title line removed,
surrounding whitespace trimmed. -/
def specParseGenerated (s : List Char) : List Char × List Char :=
  let fl := s.takeWhile (fun c => c ≠ '\n')
  let title := if fl.head? = some '#' then fl.tail else fl
  (trimChars title,
   trimChars (s.drop (fl.length + (if fl.length < s.length then 1 else 0))))

instance {ε α : Type} [DecidableEq ε] [DecidableEq α] : DecidableEq (Except ε α) :=
  fun a b =>
    match a, b with
    | .ok x, .ok y =>
      if h : x = y then .isTrue (by rw [h]) else .isFalse (by simp [h])
    | .error e, .error f =>
      if h : e = f then .isTrue (by rw [h]) else .isFalse (by simp [h])
    | .ok _, .error _ => .isFalse (by simp)
    | .error _, .ok _ => .isFalse (by simp)

/-- A tale used to instantiate the hypothesis-bearing theorems below. -/
def sampleTale : Tale :=
  { title := "T", content := "C", ageRange := "5-7", topic := "animals",
    author := 3, isPublic := true, likes := 1, likedBy := [7] }

/-- Whether a create outcome is a 400 `ValidationError`. -/
def isValidationErr (r : Except Err Tale) : Bool :=
  match r with
  | .error (.validation _) => true
  | _ => false

/-- The single-Tale states reachable through the claim's public operations:
created by `createTale`, toggled by `likeTale`, patched by `updateTale` —
claim C1 fails for patches that set `likes` or `likedBy`
(see the counterexample), so the update step here carries a patch that
names neither. -/
inductive ReachableTale : Tale → Prop where
  | created (author : UserId) (b : CreateBody) (t : Tale) :
      createTale author b = .ok t → ReachableTale t
  | liked (t t' : Tale) (u : UserId) (r : Except Err (Bool × Int)) :
      ReachableTale t → likeTale (some t) u = (some t', r) → ReachableTale t'
  | updated (t t' : Tale) (req : UserId) (p : Patch) (r : Except Err Tale) :
      ReachableTale t → p.likes = none → p.likedBy = none →
      updateTale (some t) req p = (some t', r) → ReachableTale t'

/-- A freshly created tale: `POST /api/tales` with all fields valid. -/
def cexTale0 : Tale :=
  { title := "A", content := "B", ageRange := "2-4", topic := "space",
    author := 1, isPublic := true, likes := 0, likedBy := [] }

/-- A public tale nobody has liked yet, read concurrently by two handlers. -/
def raceBase : Tale :=
  { title := "T", content := "C", ageRange := "2-4", topic := "space",
    author := 0, isPublic := true, likes := 0, likedBy := [] }

/-- C5: `likeTale` fails NotFound when no Tale exists for the id, and fails
Forbidden — leaving the stored Tale unchanged — whenever the Tale is private,
for every requester, the author included (the visibility check precedes any
ownership consideration). -/
theorem likeTale_notFound_and_private_forbidden (t : Tale) (u : UserId)
    (hpriv : t.isPublic = false) :
    likeTale none u = (none, .error .notFound) ∧
    likeTale (some t) u = (some t, .error (.forbidden "Cannot like a private tale")) ∧
    likeTale (some t) t.author =
      (some t, .error (.forbidden "Cannot like a private tale")) := by
  refine ⟨rfl, ?_, ?_⟩ <;> simp [likeTale, hpriv]

/-- Witness for C5 at a concrete private tale, the requester being the
author (17) in the third conjunct. -/
theorem likeTale_notFound_and_private_forbidden_witness :
    likeTale none 4 = (none, .error .notFound) ∧
    likeTale (some { sampleTale with author := 17, isPublic := false }) 4 =
      (some { sampleTale with author := 17, isPublic := false },
       .error (.forbidden "Cannot like a private tale")) ∧
    likeTale (some { sampleTale with author := 17, isPublic := false })
        ({ sampleTale with author := 17, isPublic := false } : Tale).author =
      (some { sampleTale with author := 17, isPublic := false },
       .error (.forbidden "Cannot like a private tale")) :=
  likeTale_notFound_and_private_forbidden
    { sampleTale with author := 17, isPublic := false } 4 rfl

/-- C6: `getTaleById` fails NotFound when no Tale exists for the id, fails
Forbidden when the Tale is not public and the requester is not the author
(an unauthenticated requester, `none`, included), returns the record to
every requester when it is public, and returns a private record to its
author. -/
theorem getTaleById_visibility (t : Tale) (r : Option UserId)
    (hpriv : t.isPublic = false) (hr : r ≠ some t.author) :
    getTaleById none r = .error .notFound ∧
    (∀ t' : Tale, t'.isPublic = true → ∀ r' : Option UserId, getTaleById (some t') r' = .ok t') ∧
    getTaleById (some t) r = .error (.forbidden "Not authorized to access this tale") ∧
    getTaleById (some t) (some t.author) = .ok t := by
  refine ⟨rfl, ?_, ?_, ?_⟩
  · intro t' hp r'
    simp [getTaleById, hp]
  · simp [getTaleById, hpriv, hr]
  · simp [getTaleById]

/-- Witness for C6: a private tale, an unauthenticated requester. -/
theorem getTaleById_visibility_witness :
    getTaleById none none = .error .notFound ∧
    (∀ t' : Tale, t'.isPublic = true → ∀ r' : Option UserId, getTaleById (some t') r' = .ok t') ∧
    getTaleById (some { sampleTale with isPublic := false }) none =
      .error (.forbidden "Not authorized to access this tale") ∧
    getTaleById (some { sampleTale with isPublic := false })
        (some ({ sampleTale with isPublic := false } : Tale).author) =
      .ok { sampleTale with isPublic := false } :=
  getTaleById_visibility { sampleTale with isPublic := false } none rfl (by decide)

/-- C10: `checkLikeStatus` performs no visibility or ownership check: on an
existing Tale — public or private, whoever the requester — it returns exactly
the membership of the requester in `likedBy`, and its only failure is
NotFound; it never returns Forbidden. -/
theorem checkLikeStatus_no_visibility_check (t : Tale) (u : UserId) (m : String) :
    checkLikeStatus none u = .error .notFound ∧
    checkLikeStatus (some t) u = .ok (t.likedBy.contains u) ∧
    checkLikeStatus (some t) u ≠ .error (.forbidden m) ∧
    checkLikeStatus (some t) u ≠ .error .notFound := by
  refine ⟨rfl, rfl, ?_, ?_⟩ <;> simp [checkLikeStatus]

/-- C2: on an existing public Tale (its `likedBy`, a set, has no duplicate),
`likeTale` toggles: a requester already in `likedBy` is removed from it and
`likes` is decremented with a floor at 0; any other requester is added and
`likes` incremented; the response carries the new liked-state — the negation
of the previous membership — and the new count. -/
theorem likeTale_toggle (t : Tale) (u : UserId)
    (hpub : t.isPublic = true) (hnd : t.likedBy.Nodup) :
    ∃ t', likeTale (some t) u =
        (some t', .ok (!t.likedBy.contains u,
                       if u ∈ t.likedBy then max 0 (t.likes - 1) else t.likes + 1)) ∧
      t'.likes = (if u ∈ t.likedBy then max 0 (t.likes - 1) else t.likes + 1) ∧
      ((u ∈ t'.likedBy) ↔ u ∉ t.likedBy) := by
  by_cases hm : u ∈ t.likedBy
  · have hc : t.likedBy.contains u = true := by simpa [List.contains] using hm
    refine ⟨{ t with likes := max 0 (t.likes - 1), likedBy := t.likedBy.erase u },
      ?_, by simp [hm], ?_⟩
    · simp [likeTale, hpub, hc, hm]
    · simpa [hm] using hnd.not_mem_erase
  · have hc : t.likedBy.contains u = false := by
      simpa [List.contains] using hm
    refine ⟨{ t with likes := t.likes + 1, likedBy := t.likedBy ++ [u] },
      ?_, by simp [hm], by simp [hm]⟩
    simp [likeTale, hpub, hc, hm]

/-- Witness for C2 at `sampleTale` (public, liked by 7) and requester 7. -/
theorem likeTale_toggle_witness :
    ∃ t', likeTale (some sampleTale) 7 =
        (some t', .ok (!sampleTale.likedBy.contains 7,
                       if 7 ∈ sampleTale.likedBy then max 0 (sampleTale.likes - 1)
                       else sampleTale.likes + 1)) ∧
      t'.likes = (if 7 ∈ sampleTale.likedBy then max 0 (sampleTale.likes - 1)
                  else sampleTale.likes + 1) ∧
      ((7 ∈ t'.likedBy) ↔ 7 ∉ sampleTale.likedBy) :=
  likeTale_toggle sampleTale 7 rfl (by decide)

/-- C3: on an existing public Tale satisfying the data-model invariant
(`likedBy` duplicate-free, `likes` its size), two successive `likeTale` calls
by the same requester — no operation in between — answer, the second time,
the requester's original liked-state and the original like count, and the
stored Tale is back to its original count and original membership for that
requester. -/
theorem likeTale_double_toggle (t : Tale) (u : UserId)
    (hpub : t.isPublic = true) (hnd : t.likedBy.Nodup)
    (hinv : t.likes = (t.likedBy.length : Int)) :
    ∃ t₂, (likeTale ((likeTale (some t) u).1) u).1 = some t₂ ∧
      (likeTale ((likeTale (some t) u).1) u).2 = .ok (t.likedBy.contains u, t.likes) ∧
      t₂.likes = t.likes ∧ ((u ∈ t₂.likedBy) ↔ u ∈ t.likedBy) := by
  by_cases hm : u ∈ t.likedBy
  · have hc : t.likedBy.contains u = true := by simpa [List.contains] using hm
    have hmax : max 0 (t.likes - 1) = t.likes - 1 := by
      have := List.length_pos_of_mem hm
      rw [hinv]; omega
    have hne : u ∉ t.likedBy.erase u := hnd.not_mem_erase
    have h1 : (likeTale (some t) u).1 =
        some { t with likes := t.likes - 1, likedBy := t.likedBy.erase u } := by
      simp [likeTale, hpub, hm, hmax]
    rw [h1]
    refine ⟨{ t with likes := t.likes - 1 + 1, likedBy := t.likedBy.erase u ++ [u] },
      ?_, ?_, ?_, ?_⟩
    · simp [likeTale, hpub, hne]
    · simp [likeTale, hpub, hne, hc, hm]
    · simp
    · simp [hm, List.mem_append]
  · have hc : t.likedBy.contains u = false := by simpa [List.contains] using hm
    have h0 : (0 : Int) ≤ t.likes := by rw [hinv]; positivity
    have h1 : (likeTale (some t) u).1 =
        some { t with likes := t.likes + 1, likedBy := t.likedBy ++ [u] } := by
      simp [likeTale, hpub, hm]
    have hmem2 : u ∈ t.likedBy ++ [u] := by simp
    have herase : (t.likedBy ++ [u]).erase u = t.likedBy := by
      rw [List.erase_append_right _ hm, List.erase_cons_head]
      simp
    rw [h1]
    refine ⟨{ t with likes := max 0 (t.likes + 1 - 1), likedBy := (t.likedBy ++ [u]).erase u }, ?_, ?_, ?_, ?_⟩
    · simp [likeTale, hpub, hmem2]
    · simp [likeTale, hpub, hmem2, hc, hm, max_eq_right h0]
    · simp [max_eq_right h0]
    · simp [herase, hm]

/-- Witness for C3 at `sampleTale` (public, `likes = 1 = |likedBy|`),
requester 7 then requester 9 would differ; requester 7 is the one in
`likedBy`. -/
theorem likeTale_double_toggle_witness :
    ∃ t₂, (likeTale ((likeTale (some sampleTale) 7).1) 7).1 = some t₂ ∧
      (likeTale ((likeTale (some sampleTale) 7).1) 7).2 =
        .ok (sampleTale.likedBy.contains 7, sampleTale.likes) ∧
      t₂.likes = sampleTale.likes ∧ ((7 ∈ t₂.likedBy) ↔ 7 ∈ sampleTale.likedBy) :=
  likeTale_double_toggle sampleTale 7 rfl (by decide) (by decide)

/-- Counterexample to C4 as stated: `updateTale` passes the whole request
body to `findByIdAndUpdate` and `taleSchema` does not mark `author`
immutable, so a patch naming `author` is accepted by update (the requester
being the current author) and changes the stored author from 1 to 2. -/
theorem updateTale_author_mutable_cex :
    (updateTale
        (some { title := "A", content := "B", ageRange := "2-4", topic := "space",
                author := 1, isPublic := false, likes := 0, likedBy := [] })
        1 { author := some 2 }) =
      (some { title := "A", content := "B", ageRange := "2-4", topic := "space",
              author := 2, isPublic := false, likes := 0, likedBy := [] },
       .ok { title := "A", content := "B", ageRange := "2-4", topic := "space",
             author := 2, isPublic := false, likes := 0, likedBy := [] }) ∧
    ({ title := "A", content := "B", ageRange := "2-4", topic := "space",
       author := 2, isPublic := false, likes := 0, likedBy := [] } : Tale).author ≠
      ({ title := "A", content := "B", ageRange := "2-4", topic := "space",
         author := 1, isPublic := false, likes := 0, likedBy := [] } : Tale).author := by
  refine ⟨rfl, by decide⟩

/-- C4 amended: the stored author survives every update whose patch does not
name the `author` field (whatever else the accepted patch touches and whatever
the outcome); a patch that names `author` overwrites it. -/
theorem updateTale_preserves_author (t t' : Tale) (req : UserId) (p : Patch)
    (hp : p.author = none) (h : (updateTale (some t) req p).1 = some t') :
    t'.author = t.author := by
  simp only [updateTale] at h
  split at h
  · have h2 : some t = some t' := h
    cases h2
    rfl
  · split at h
    · have h2 : some (applyPatch t p) = some t' := h
      cases h2
      simp [applyPatch, hp]
    · have h2 : some t = some t' := h
      cases h2
      rfl

/-- Witness for C4's amended theorem: `sampleTale` patched on title only. -/
theorem updateTale_preserves_author_witness :
    (updateTale (some sampleTale) 3 { title := some "New" }).1 =
      some { sampleTale with title := "New" } ∧
    ({ sampleTale with title := "New" } : Tale).author = sampleTale.author :=
  ⟨rfl, updateTale_preserves_author sampleTale { sampleTale with title := "New" } 3
    { title := some "New" } rfl rfl⟩

theorem strTrim_default_empty : strTrim ((none : Option String).getD "") = "" := by decide

/-- Every failure of `createTale` is a `ValidationError`: the only `next(error)`
the handler can reach comes from `Tale.create`'s validators. -/
theorem createTale_error_validation (a : UserId) (b : CreateBody) (e : Err)
    (h : createTale a b = .error e) : ∃ m, e = .validation m := by
  simp only [createTale] at h
  split at h
  · cases h; exact ⟨_, rfl⟩
  · split at h
    · cases h; exact ⟨_, rfl⟩
    · split at h
      · cases h; exact ⟨_, rfl⟩
      · split at h
        · cases h; exact ⟨_, rfl⟩
        · split at h
          · cases h; exact ⟨_, rfl⟩
          · split at h
            · cases h; exact ⟨_, rfl⟩
            · split at h
              · cases h; exact ⟨_, rfl⟩
              · cases h

/-- A successful `createTale` had all four required fields and both enums
satisfied. -/
theorem createTale_ok_valid (a : UserId) (b : CreateBody) (t : Tale)
    (h : createTale a b = .ok t) :
    b.title ≠ none ∧ b.content ≠ none ∧
    (∃ x, b.ageRange = some x ∧ x ∈ ageRanges) ∧
    (∃ x, b.topic = some x ∧ x ∈ topics) := by
  simp only [createTale] at h
  split at h
  · cases h
  · rename_i htitle
    split at h
    · cases h
    · split at h
      · cases h
      · rename_i hcontent
        split at h
        · cases h
        · rename_i x hx
          split at h
          · cases h
          · rename_i hxm
            split at h
            · cases h
            · rename_i y hy
              split at h
              · cases h
              · rename_i hym
                refine ⟨?_, ?_, ⟨x, hx, by simpa using hxm⟩, ⟨y, hy, by simpa using hym⟩⟩
                · intro hbt
                  rw [hbt] at htitle
                  exact htitle strTrim_default_empty
                · intro hbc
                  rw [hbc] at hcontent
                  exact hcontent strTrim_default_empty

/-- C7: `createTale` fails with a 400 `ValidationError` — and persists no
record — for every input missing a required field (title, content, ageRange,
topic) and for every input whose ageRange is outside the 4 bands or whose
topic is outside the 9 categories. -/
theorem createTale_rejects_invalid (a : UserId) (b : CreateBody)
    (h : b.title = none ∨ b.content = none ∨ b.ageRange = none ∨ b.topic = none ∨
         (∃ x, b.ageRange = some x ∧ ¬ x ∈ ageRanges) ∨
         (∃ x, b.topic = some x ∧ ¬ x ∈ topics)) :
    isValidationErr (createTale a b) = true ∧ ∀ t, createTale a b ≠ .ok t := by
  have hval : isValidationErr (createTale a b) = true := by
    cases hres : createTale a b with
    | error e =>
      obtain ⟨m, rfl⟩ := createTale_error_validation a b e hres
      rfl
    | ok t =>
      obtain ⟨h1, h2, ⟨x, hx, hxm⟩, ⟨y, hy, hym⟩⟩ := createTale_ok_valid a b t hres
      rcases h with h|h|h|h|⟨z,hz,hzm⟩|⟨z,hz,hzm⟩ <;> simp_all
  refine ⟨hval, ?_⟩
  intro t hok
  rw [hok] at hval
  simp [isValidationErr] at hval

/-- Witness for C7: a create request whose topic, "dragons", is in no
recognized category. -/
theorem createTale_rejects_invalid_witness :
    isValidationErr (createTale 1 ⟨some "A", some "B", some "2-4", some "dragons", none⟩) =
      true ∧
    ∀ t, createTale 1 ⟨some "A", some "B", some "2-4", some "dragons", none⟩ ≠ .ok t :=
  createTale_rejects_invalid 1 ⟨some "A", some "B", some "2-4", some "dragons", none⟩
    (Or.inr (Or.inr (Or.inr (Or.inr (Or.inr ⟨"dragons", rfl, by decide⟩)))))

/-- A successful `createTale` persists a fresh like state: counter 0, empty
`likedBy`. -/
theorem createTale_ok_fresh (a : UserId) (b : CreateBody) (t : Tale)
    (h : createTale a b = .ok t) : t.likes = 0 ∧ t.likedBy = [] := by
  simp only [createTale] at h
  split at h
  · cases h
  · split at h
    · cases h
    · split at h
      · cases h
      · split at h
        · cases h
        · split at h
          · cases h
          · split at h
            · cases h
            · split at h
              · cases h
              · cases h
                exact ⟨rfl, rfl⟩

/-- C1 amended: every Tale reachable through `createTale`, `likeTale` and
`likes`/`likedBy`-free updates has a duplicate-free `likedBy` whose size the
`likes` counter equals (creation yields 0 and `[]`; every `likeTale`
preserves the equality); an update patch that sets `likes` or `likedBy`
directly can break it. -/
theorem reachable_likes_eq_card (t : Tale) (h : ReachableTale t) :
    t.likedBy.Nodup ∧ t.likes = (t.likedBy.length : Int) := by
  induction h with
  | created a b t hc =>
    obtain ⟨h1, h2⟩ := createTale_ok_fresh a b t hc
    rw [h1, h2]
    exact ⟨List.nodup_nil, rfl⟩
  | liked t t' u r _ heq ih =>
    obtain ⟨hnd, hinv⟩ := ih
    by_cases hpub : t.isPublic
    · by_cases hm : u ∈ t.likedBy
      · have h1 : likeTale (some t) u =
            (some { t with likes := max 0 (t.likes - 1), likedBy := t.likedBy.erase u },
             .ok (false, max 0 (t.likes - 1))) := by
          simp [likeTale, hpub, hm]
        rw [h1, Prod.mk.injEq] at heq
        obtain ⟨he, -⟩ := heq
        injection he with he
        subst he
        have hlen : 1 ≤ t.likedBy.length := List.length_pos_of_mem hm
        refine ⟨hnd.erase u, ?_⟩
        simp only
        rw [hinv, List.length_erase_of_mem hm, max_eq_right, Nat.cast_sub hlen,
          Nat.cast_one]
        omega
      · have h1 : likeTale (some t) u =
            (some { t with likes := t.likes + 1, likedBy := t.likedBy ++ [u] },
             .ok (true, t.likes + 1)) := by
          simp [likeTale, hpub, hm]
        rw [h1, Prod.mk.injEq] at heq
        obtain ⟨he, -⟩ := heq
        injection he with he
        subst he
        refine ⟨?_, ?_⟩
        · refine List.nodup_append.mpr ⟨hnd, by simp, ?_⟩
          intro x hx hxu
          simp only [List.mem_singleton] at hxu
          subst hxu
          exact hm hx
        · simp only [List.length_append, List.length_singleton]
          rw [hinv]
          push_cast
          ring
    · have h1 : likeTale (some t) u =
          (some t, .error (.forbidden "Cannot like a private tale")) := by
        simp [likeTale, hpub]
      rw [h1, Prod.mk.injEq] at heq
      obtain ⟨he, -⟩ := heq
      injection he with he
      subst he
      exact ⟨hnd, hinv⟩
  | updated t t' req p r _ hl hb heq ih =>
    simp only [updateTale] at heq
    split at heq
    · rw [Prod.mk.injEq] at heq
      obtain ⟨he, -⟩ := heq
      injection he with he
      subst he
      exact ih
    · split at heq
      · rw [Prod.mk.injEq] at heq
        obtain ⟨he, -⟩ := heq
        injection he with he
        subst he
        simpa [applyPatch, hl, hb] using ih
      · rw [Prod.mk.injEq] at heq
        obtain ⟨he, -⟩ := heq
        injection he with he
        subst he
        exact ih

/-- Counterexample to C1 as stated: starting from a tale created through
`createTale`, the author PATCHes `{ likes: 1 }` — accepted by `updateTale`
(the `likes` path has no validator) — and the stored tale then has
`likes = 1` while `likedBy` is empty: the update, a public operation the
claim quantifies over, does not preserve `likes = |likedBy|`. -/
theorem likes_invariant_update_cex :
    createTale 1 ⟨some "A", some "B", some "2-4", some "space", some true⟩ =
      .ok cexTale0 ∧
    updateTale (some cexTale0) 1 { likes := some 1 } =
      (some { cexTale0 with likes := 1 }, .ok { cexTale0 with likes := 1 }) ∧
    ¬ (({ cexTale0 with likes := 1 } : Tale).likes =
        (({ cexTale0 with likes := 1 } : Tale).likedBy.length : Int)) := by
  refine ⟨rfl, rfl, by decide⟩

/-- Witness for C1's amended theorem: the tale created by `createTale` and
then liked once by user 5 satisfies the invariant. -/
theorem reachable_likes_eq_card_witness :
    ({ cexTale0 with likes := 1, likedBy := [5] } : Tale).likedBy.Nodup ∧
    ({ cexTale0 with likes := 1, likedBy := [5] } : Tale).likes =
      (({ cexTale0 with likes := 1, likedBy := [5] } : Tale).likedBy.length : Int) :=
  reachable_likes_eq_card { cexTale0 with likes := 1, likedBy := [5] }
    (ReachableTale.liked cexTale0 { cexTale0 with likes := 1, likedBy := [5] } 5
      (.ok (true, 1))
      (ReachableTale.created 1 ⟨some "A", some "B", some "2-4", some "space", some true⟩
        cexTale0 rfl)
      rfl)

/-- C9: `likeTale` is `findById` followed by in-memory mutation and `save` —
an unisolated read-modify-write, not an atomic store update.  In the
interleaving where handlers of users 1 and 2 both run `findById` before
either `save`s, each computes its write from the same snapshot `raceBase`;
user 2's `save` (the first two conjuncts are each handler's computed write,
writes landing in that order) leaves `likes = 1, likedBy = [2]` as the final
document, whereas the serial execution of the same two toggles — what the
claim requires of any interleaving — ends at `likes = 2` with both users in
`likedBy`: user 1's like is lost. -/
theorem likeTale_lost_update :
    (likeTale (some raceBase) 1).1 = some { raceBase with likes := 1, likedBy := [1] } ∧
    (likeTale (some raceBase) 2).1 = some { raceBase with likes := 1, likedBy := [2] } ∧
    (likeTale ((likeTale (some raceBase) 1).1) 2).1 =
      some { raceBase with likes := 2, likedBy := [1, 2] } ∧
    ({ raceBase with likes := 1, likedBy := [2] } : Tale).likes ≠
      ({ raceBase with likes := 2, likedBy := [1, 2] } : Tale).likes ∧
    (1 : UserId) ∉ ({ raceBase with likes := 1, likedBy := [2] } : Tale).likedBy := by
  refine ⟨rfl, rfl, rfl, by decide, by decide⟩

theorem dropWhile_append_of_all {α : Type} {p : α → Bool} (w x : List α)
    (hw : ∀ c ∈ w, p c = true) : (w ++ x).dropWhile p = x.dropWhile p := by
  rw [List.dropWhile_append]
  rw [List.dropWhile_eq_nil_iff.mpr hw]
  rfl

theorem trimChars_ws_append (w x : List Char) (hw : ∀ c ∈ w, isWs c = true) :
    trimChars (w ++ x) = trimChars x := by
  unfold trimChars
  rw [dropWhile_append_of_all w x hw]

/-- When the leading whitespace run of `l` holds no newline, taking up to the
first newline first skips exactly that run. -/
theorem takeWhile_ne_nl (l : List Char) (h : '\n' ∉ l.takeWhile isWs) :
    l.takeWhile (fun c => c ≠ '\n') =
      l.takeWhile isWs ++ (l.dropWhile isWs).takeWhile (fun c => c ≠ '\n') := by
  induction l with
  | nil => rfl
  | cons c l ih =>
    by_cases hw : isWs c = true
    · rw [List.takeWhile_cons_of_pos hw] at h
      have hc : c ≠ '\n' := fun e => h (e ▸ List.mem_cons_self c _)
      have h' : '\n' ∉ l.takeWhile isWs := fun hm => h (List.mem_cons_of_mem _ hm)
      have hcb : (fun c => decide (c ≠ '\n')) c = true := by simp [hc]
      rw [@List.takeWhile_cons_of_pos Char (fun c => decide (c ≠ '\n')) c l hcb,
        List.takeWhile_cons_of_pos hw,
        List.dropWhile_cons_of_pos hw, ih h', List.cons_append]
    · rw [List.takeWhile_cons_of_neg hw, List.dropWhile_cons_of_neg hw,
        List.nil_append]

theorem takeWhile_head?_some {α : Type} {p : α → Bool} {l : List α} {c : α}
    (h : (l.takeWhile p).head? = some c) : l.head? = some c := by
  cases l with
  | nil => simp at h
  | cons a l =>
    rw [List.takeWhile_cons] at h
    split at h
    · simp only [List.head?_cons, Option.some.injEq] at h ⊢
      exact h
    · simp at h


/-- When the leading dot-run of `l` equals its leading up-to-newline run
(no CR/LS/PS before the first newline), the dot-run reaches the end of `l`
or stops exactly at a `'\n'` — i.e. the regexes' `(?:\n|$)` succeeds. -/
theorem run_stop_nl (l : List Char)
    (h : l.takeWhile (fun c => !isTerm c) = l.takeWhile (fun c => c ≠ '\n')) :
    (l.takeWhile (fun c => !isTerm c)).length = l.length ∨
      l[(l.takeWhile (fun c => !isTerm c)).length]? = some '\n' := by
  induction l with
  | nil => exact Or.inl rfl
  | cons a l ih =>
    by_cases ha : isTerm a = true
    · have h0 : (a :: l).takeWhile (fun c => !isTerm c) = [] :=
        List.takeWhile_cons_of_neg (by simp [ha])
      rw [h0] at h ⊢
      right
      by_cases han : a = '\n'
      · subst han
        simp
      · rw [@List.takeWhile_cons_of_pos Char (fun c => decide (c ≠ '\n')) a l
          (by simp [han])] at h
        simp at h
    · have hna : a ≠ '\n' := fun e => by rw [e] at ha; simp [isTerm] at ha
      rw [@List.takeWhile_cons_of_pos Char (fun c => !isTerm c) a l (by simp [ha]),
        @List.takeWhile_cons_of_pos Char (fun c => decide (c ≠ '\n')) a l
          (by simp [hna])] at h
      injection h with _ h'
      rw [@List.takeWhile_cons_of_pos Char (fun c => !isTerm c) a l (by simp [ha])]
      rcases ih h' with hl | hr
      · exact Or.inl (by simp [hl])
      · right
        simpa using hr

/-- The regexes of `generateTale` agree with the spec's first-line reading
exactly when the match proceeds without meeting a line terminator other than
`'\n'`: for a text starting with `#`, when the `\s*`-run holds no terminator
and the dot-run after it stops at `'\n'` or the end; for any other text, when
its leading dot-run stops at `'\n'` or the end. -/
theorem parseGenerated_eq_spec (s : List Char)
    (h1 : s.head? = some '#' →
        (∀ c ∈ s.tail.takeWhile isWs, isTerm c = false) ∧
        (s.tail.dropWhile isWs).takeWhile (fun c => !isTerm c) =
          (s.tail.dropWhile isWs).takeWhile (fun c => c ≠ '\n'))
    (h2 : ¬ s.head? = some '#' →
        s.takeWhile (fun c => !isTerm c) = s.takeWhile (fun c => c ≠ '\n')) :
    parseGenerated s = specParseGenerated s := by
  by_cases hh : s.head? = some '#'
  · obtain ⟨rest, rfl⟩ : ∃ rest, s = '#' :: rest := by
      cases s with
      | nil => simp at hh
      | cons c l =>
        simp only [List.head?_cons, Option.some.injEq] at hh
        exact ⟨l, by rw [hh]⟩
    obtain ⟨hW, hrun⟩ := h1 hh
    simp only [List.tail_cons] at hW hrun
    have hnl : '\n' ∉ rest.takeWhile isWs := fun hm => by
      simpa [isTerm] using hW _ hm
    have hw : ∀ c ∈ rest.takeWhile isWs, isWs c = true :=
      fun c hc => List.mem_takeWhile_imp hc
    have hsucc := run_stop_nl (rest.dropWhile isWs) hrun
    have hfl : ('#' :: rest).takeWhile (fun c => c ≠ '\n') =
        '#' :: (rest.takeWhile isWs ++
          (rest.dropWhile isWs).takeWhile (fun c => c ≠ '\n')) := by
      rw [List.takeWhile_cons_of_pos (by decide), takeWhile_ne_nl rest hnl]
    have hrlen : rest.length =
        (rest.takeWhile isWs).length + (rest.dropWhile isWs).length := by
      conv_lhs => rw [← List.takeWhile_append_dropWhile isWs rest]
      rw [List.length_append]
    have lhs_eq : parseGenerated ('#' :: rest) =
        (trimChars ((rest.dropWhile isWs).takeWhile (fun c => !isTerm c)),
         trimChars (('#' :: rest).drop
           (1 + (rest.takeWhile isWs).length +
             ((rest.dropWhile isWs).takeWhile (fun c => !isTerm c)).length +
             (if ((rest.dropWhile isWs).takeWhile (fun c => !isTerm c)).length <
                 (rest.dropWhile isWs).length then 1 else 0)))) := by
      simp only [parseGenerated, List.head?_cons, List.tail_cons, if_true]
      rw [if_pos hsucc]
    rw [lhs_eq, hrun]
    simp only [specParseGenerated, hfl, List.head?_cons, List.tail_cons,
      List.length_cons, if_true]
    have hnum : 1 + (rest.takeWhile isWs).length +
        ((rest.dropWhile isWs).takeWhile (fun c => decide (c ≠ '\n'))).length +
        (if ((rest.dropWhile isWs).takeWhile (fun c => decide (c ≠ '\n'))).length <
            (rest.dropWhile isWs).length then 1 else 0) =
        (rest.takeWhile isWs ++
          (rest.dropWhile isWs).takeWhile (fun c => decide (c ≠ '\n'))).length + 1 +
        (if (rest.takeWhile isWs ++
            (rest.dropWhile isWs).takeWhile (fun c => decide (c ≠ '\n'))).length + 1 <
            rest.length + 1 then 1 else 0) := by
      simp only [List.length_append]
      split_ifs <;> omega
    rw [hnum, trimChars_ws_append _ _ hw]
  · have hrun := h2 hh
    have hsucc := run_stop_nl s hrun
    have hfl_head : ¬ (s.takeWhile (fun c => c ≠ '\n')).head? = some '#' :=
      fun hc => hh (takeWhile_head?_some hc)
    simp only [parseGenerated, specParseGenerated]
    rw [if_neg hh, if_pos hsucc, hrun, if_neg hfl_head]

/-- Counterexample to C8 as stated, in both failure modes. On `"#\nBody"`
the first line is the bare heading marker, so the claim's reading yields an
empty title and the body `"Body"`; the greedy `\s*` of
`/^#\s*(.*?)(?:\n|$)/` crosses the newline and the code instead titles the
tale `"Body"` with empty content. On the CRLF text `"Title\r\nBody"` both
regexes are null (JS `.` does not match `'\r'`), so the code returns the
fixed title `"Untitled Tale"` and the whole untrimmed text as content,
not the first line and remainder. -/
theorem parseGenerated_heading_cex :
    parseGenerated ("#\nBody".data) = ("Body".data, "".data) ∧
    specParseGenerated ("#\nBody".data) = ("".data, "Body".data) ∧
    ¬ (parseGenerated ("#\nBody".data)).1 = (specParseGenerated ("#\nBody".data)).1 ∧
    parseGenerated ("Title\r\nBody".data) =
      ("Untitled Tale".data, "Title\r\nBody".data) ∧
    specParseGenerated ("Title\r\nBody".data) = ("Title".data, "Body".data) ∧
    ¬ (parseGenerated ("Title\r\nBody".data)).1 =
      (specParseGenerated ("Title\r\nBody".data)).1 := by
  refine ⟨by decide, by decide, by decide, by decide, by decide, by decide⟩

/-- C8 amended: `generateTale` calls the external generator once, surfacing
its failure as a 500 GenerationFailed with no retry; and its parse agrees
with the claim's first-line reading (title = first line with a leading `#`
stripped, body = remainder with the title line removed, trimmed) for every
text whose match meets no line terminator other than `'\n'` — when it starts
with `#`: no terminator inside the whitespace run the `\s*` swallows, and
the capture run after it stops at `'\n'` or the end; otherwise: the leading
dot-run stops at `'\n'` or the end. Outside that region the code instead
draws the title from a later line (a `'\n'` inside the swallowed
whitespace), or returns the fixed title `"Untitled Tale"` with the whole
untrimmed text (a CR, LS or PS in the first line: both regexes null). -/
theorem generateTale_parse_amended (a tp : String) (text : List Char)
    (ha : ¬ a = "") (htp : ¬ tp = "")
    (h1 : text.head? = some '#' →
        (∀ c ∈ text.tail.takeWhile isWs, isTerm c = false) ∧
        (text.tail.dropWhile isWs).takeWhile (fun c => !isTerm c) =
          (text.tail.dropWhile isWs).takeWhile (fun c => c ≠ '\n'))
    (h2 : ¬ text.head? = some '#' →
        text.takeWhile (fun c => !isTerm c) = text.takeWhile (fun c => c ≠ '\n')) :
    generateTale (some a) (some tp) (.error ()) = .error .generationFailed ∧
    generateTale (some a) (some tp) (.ok text) =
      .ok { title := (specParseGenerated text).1,
            content := (specParseGenerated text).2, ageRange := a, topic := tp } := by
  have hcond : ¬ (a = "" ∨ tp = "") := by tauto
  constructor
  · simp [generateTale, hcond]
  · simp [generateTale, hcond, parseGenerated_eq_spec text h1 h2]

/-- Witness for C8's amended theorem: a run with `ageRange "2-4"`,
`topic "space"` and the generated text `"# My Title\nOnce upon a time."`,
whose swallowed whitespace is the single blank and whose capture stops at
the newline. -/
theorem generateTale_parse_amended_witness :
    generateTale (some "2-4") (some "space") (.error ()) = .error .generationFailed ∧
    generateTale (some "2-4") (some "space") (.ok ("# My Title\nOnce upon a time.".data)) =
      .ok { title := (specParseGenerated ("# My Title\nOnce upon a time.".data)).1,
            content := (specParseGenerated ("# My Title\nOnce upon a time.".data)).2,
            ageRange := "2-4", topic := "space" } :=
  generateTale_parse_amended "2-4" "space" ("# My Title\nOnce upon a time.".data)
    (by decide) (by decide) (fun _ => ⟨by decide, by decide⟩) (fun h => absurd rfl h)
